import Mathlib

/-!
Verification of the review-sampling lambdas of schmitech/user-feedback-simulator.

The repository contains two variants of the sampling lambda:
* EvenSplit      : cdk-user-feedback/lambda/index.py          (strategy A: even split
                   across 3 random buckets with a randomized pagination skip)
* RatioBalanced  : cdk-user-feedback/lambda/reviews/index.py  (strategy C: 5 random
                   buckets with positive/negative target balancing)

The partitioned store (DynamoDB behind boto3) is external to the repository; it is
modelled through the adapter contract of the spec (section 4.1): a bucket-scoped
query returns the matching rows of that bucket in index order, and per-bucket query
results are supplied as explicit parameters (an Option value, where none models a
query that raised).  Randomness (random.sample, random.randint, random.shuffle) is
modelled by explicit function parameters constrained by hypotheses where needed.
-/

/-- A stored review, restricted to the fields the sampling path inspects:
reviewId (unique key), rating (integer, classified positive when at least 4),
randomBucket (partition tag) and department (filter field).  The remaining
payload fields are opaque to the sampler. -/
structure Review where
  reviewId : String
  rating : Int
  randomBucket : Nat
  department : String
deriving DecidableEq, Repr

/-- rating >= 4, the positive class of the spec. -/
def isPositive (r : Review) : Bool := decide (4 ≤ r.rating)

/-- rating < 4, the negative class of the spec. -/
def isNegative (r : Review) : Bool := decide (r.rating < 4)

/-- Number of positive reviews in a list. -/
def countP (l : List Review) : Nat := (l.filter isPositive).length

/-- Number of negative reviews in a list. -/
def countN (l : List Review) : Nat := (l.filter isNegative).length

/-! ### Value-level model of clean_item

clean_item (identical in both lambda files) walks the fields age, rating,
randomBucket of an item dict and replaces a Decimal or float value v by
int(float(v)).  Items are modelled as association lists of Python values.
Decimal and float payloads are carried as rationals; the Decimal-to-float
conversion is modelled exactly (the data loaded by this repository consists of
small decimal numbers that a double represents exactly). -/

/-- A Python value as it can appear in a review item dict. -/
inductive PyVal where
  | int : Int → PyVal
  | dec : ℚ → PyVal
  | float : ℚ → PyVal
  | str : String → PyVal
deriving DecidableEq, Repr

/-- Python int() applied to a float: truncation toward zero. -/
def pyInt (q : ℚ) : Int := if 0 ≤ q then ⌊q⌋ else ⌈q⌉

/-- The integer_fields set of clean_item. -/
def integerFields : List String := ["age", "rating", "randomBucket"]

/-- The per-value coercion of clean_item: a Decimal or float value becomes
int(float(v)); other values are untouched. -/
def coerceVal (v : PyVal) : PyVal :=
  match v with
  | .dec q => .int (pyInt q)
  | .float q => .int (pyInt q)
  | v => v

/-- clean_item: coerce the integer-typed fields of an item dict.  The Python
loop mutates item[field] for each field in integer_fields; on an association
list this is a map over the entries guarded by the key. -/
def clean_item (item : List (String × PyVal)) : List (String × PyVal) :=
  item.map (fun kv => if kv.1 ∈ integerFields then (kv.1, coerceVal kv.2) else kv)

/-! ### Result assembly (lines 107-109 of both lambda files)

random.shuffle followed by slicing to batch_size and a clean_item pass.
At the structured Review level clean_item is the identity: it only changes the
machine representation of the numeric fields (modelled on PyVal above) and the
Review model already carries them as integers. -/

/-- clean_item at the structured Review level. -/
def cleanReview (r : Review) : Review := r

/-- Final assembly: shuffle the accumulated items, truncate to batch_size, and
clean each returned item. -/
def assemble (shuffle : List Review → List Review) (items : List Review) (batch : Nat) :
    List Review :=
  ((shuffle items).take batch).map cleanReview

/-! ### Request/response boundary shared by both lambdas -/

/-- Response body, structured (JSON serialization is external).  The timestamp
and queryTime metadata fields come from external clocks and are not modelled. -/
inductive Body where
  | emptyObj : Body
  | errorBody (error message : String) : Body
  | success (reviews : List Review) (count : Nat) (ratingFilter departmentFilter : String) : Body
deriving DecidableEq, Repr

/-- An API Gateway response as built by create_response. -/
structure HttpResponse where
  statusCode : Nat
  headers : List (String × String)
  body : Body
deriving DecidableEq, Repr

/-- The fixed header block of create_response. -/
def responseHeaders : List (String × String) :=
  [("Content-Type", "application/json"),
   ("Access-Control-Allow-Origin", "*"),
   ("Access-Control-Allow-Headers",
      "Content-Type,X-Amz-Date,Authorization,X-Api-Key,X-Amz-Security-Token"),
   ("Access-Control-Allow-Methods", "POST,OPTIONS")]

/-- create_response (identical in both lambda files). -/
def create_response (statusCode : Nat) (body : Body) : HttpResponse :=
  ⟨statusCode, responseHeaders, body⟩

/-- The parsed JSON request body (json.loads output, already parsed; a missing
body parses to the empty dict, giving all defaults). -/
structure ReqBody where
  batchSize : Option Nat
  ratingFilter : Option String
  departmentFilter : Option String
deriving DecidableEq, Repr

/-- An incoming API Gateway event, restricted to the fields the handlers read. -/
structure Event where
  httpMethod : Option String
  body : Option ReqBody
deriving DecidableEq, Repr

/-- Lambda environment: the two variables validate_environment checks. -/
structure Env where
  tableName : Option String
  tableGSI : Option String
deriving DecidableEq, Repr

/-- Python truthiness of os.environ.get(var): absent or empty counts as missing. -/
def envPresent : Option String → Bool
  | some s => decide (s ≠ "")
  | none => false

/-- The missing_vars list computed by validate_environment (reviews variant). -/
def missingVars (env : Env) : List String :=
  (if envPresent env.tableName then [] else ["TABLE_NAME"]) ++
  (if envPresent env.tableGSI then [] else ["TABLE_GSI"])

/-! ### Strategy C: the ratio-balanced sampler (lambda/reviews/index.py, lines 39-109)

The five sampled buckets and their query outcomes are supplied as
results : List (Option (List Review)) in bucket order; none models a bucket
whose table.query call raised (the except branch logs and continues).  The
rating and department filters shape the query the store executes; the rows a
successful query returned are the corresponding some entry.
random.sample is the sample parameter, random.shuffle the shuffle parameter. -/

namespace RatioBalanced

/-- Loop state: (all_items, positive_target, negative_target). -/
abbrev SampState := List Review × Nat × Nat

/-- Processing of one successful bucket query (lines 83-97).  For
ratingFilter = "all" the rows are split into classes, up to the remaining
target is drawn from each class without replacement, and each target is
decremented by max(0, target - class size) (Nat subtraction is exactly
Python max(0, a - b) on nonnegative ints); otherwise the rows are appended
unchanged. -/
def ratioStep (sample : List Review → Nat → List Review) (ratingFilter : String)
    (st : SampState) (items : List Review) : SampState :=
  if ratingFilter = "all" then
    let pos := items.filter isPositive
    let neg := items.filter isNegative
    let a1 := if 0 < pos.length ∧ 0 < st.2.1 then st.1 ++ sample pos (min pos.length st.2.1) else st.1
    let p1 := if 0 < pos.length ∧ 0 < st.2.1 then st.2.1 - pos.length else st.2.1
    let a2 := if 0 < neg.length ∧ 0 < st.2.2 then a1 ++ sample neg (min neg.length st.2.2) else a1
    let n1 := if 0 < neg.length ∧ 0 < st.2.2 then st.2.2 - neg.length else st.2.2
    (a2, p1, n1)
  else
    (st.1 ++ items, st.2.1, st.2.2)

/-- The bucket loop (lines 54-105).  A failed query (none) hits the except
branch: continue, which also skips the early-exit check.  After a successful
bucket the loop stops once len(all_items) >= batch_size. -/
def ratioLoop (sample : List Review → Nat → List Review) (ratingFilter : String)
    (batch : Nat) : SampState → List (Option (List Review)) → SampState
  | st, [] => st
  | st, none :: rest => ratioLoop sample ratingFilter batch st rest
  | st, some items :: rest =>
      let st1 := ratioStep sample ratingFilter st items
      if batch ≤ st1.1.length then st1 else ratioLoop sample ratingFilter batch st1 rest

/-- The loop states observed after each processed bucket (a failed bucket
leaves the state unchanged; states after the early exit are not reached). -/
def ratioStates (sample : List Review → Nat → List Review) (ratingFilter : String)
    (batch : Nat) : SampState → List (Option (List Review)) → List SampState
  | _, [] => []
  | st, none :: rest => st :: ratioStates sample ratingFilter batch st rest
  | st, some items :: rest =>
      let st1 := ratioStep sample ratingFilter st items
      st1 :: (if batch ≤ st1.1.length then [] else ratioStates sample ratingFilter batch st1 rest)

/-- The initial (positive_target, negative_target) pair (lines 46-52). -/
def initTargets (batch : Nat) (ratingFilter : String) : Nat × Nat :=
  if ratingFilter = "all" then (batch - batch / 2, batch / 2)
  else ((if ratingFilter = "positive" then batch else 0),
        (if ratingFilter = "negative" then batch else 0))

/-- get_random_reviews of the reviews variant.  departmentFilter only shapes
the store query and is absorbed into the supplied results. -/
def get_random_reviews (batch : Nat) (ratingFilter departmentFilter : String)
    (results : List (Option (List Review)))
    (sample : List Review → Nat → List Review)
    (shuffle : List Review → List Review) : List Review :=
  let t := initTargets batch ratingFilter
  let final := ratioLoop sample ratingFilter batch ([], t.1, t.2) results
  assemble shuffle final.1 batch

/-- lambda_handler of the reviews variant (lines 124-165): environment
validation first, then the CORS preflight check, then the sampling flow. -/
def lambda_handler (env : Env) (event : Event)
    (results : List (Option (List Review)))
    (sample : List Review → Nat → List Review)
    (shuffle : List Review → List Review) : HttpResponse :=
  if (missingVars env).isEmpty = false then
    create_response 500
      (.errorBody
        ("Missing required environment variables: " ++ String.intercalate ", " (missingVars env))
        "Lambda configuration error")
  else if event.httpMethod = some "OPTIONS" then
    create_response 200 .emptyObj
  else
    let body := event.body.getD ⟨none, none, none⟩
    let batch := min (body.batchSize.getD 20) 50
    let rf := body.ratingFilter.getD "all"
    let df := body.departmentFilter.getD "all"
    let items := get_random_reviews batch rf df results sample shuffle
    create_response 200 (.success items items.length rf df)

end RatioBalanced

/-! ### Strategy A: the even-split sampler (lambda/index.py, lines 32-109)

Per bucket the code runs: a COUNT query (whose parameters are a copy of the
fetch parameters and therefore still carry Limit = items_per_bucket, capping
the reported count), a random skip offset, a pagination walk of
skip_items // 100 single-row queries meant to advance the cursor, and the
fetch.  rows is the list of the matching rows of the bucket in index order
(the store adapter contract of spec section 4.1); a query with limit L
returns at most L of them and reports a resume cursor only if rows remain. -/

namespace EvenSplit

/-- Outcome of the skip phase (the try block, lines 71-97). -/
inductive SkipResult where
  /-- an exception was raised inside the try block and caught at line 95 -/
  | errorCaught : SkipResult
  /-- no ExclusiveStartKey was written (count zero or offset zero) -/
  | noKey : SkipResult
  /-- ExclusiveStartKey was assigned None: the final walk response carried no
  LastEvaluatedKey, and the later fetch call rejects the None key -/
  | keyNone : SkipResult
  /-- ExclusiveStartKey names the cursor before row p: the fetch starts at row p -/
  | keyAt (p : Nat) : SkipResult
deriving DecidableEq, Repr

/-- The pagination walk of lines 85-90 for a bucket of n rows, running k
single-row (Limit 1) queries: the i-th query evaluates row i and reports a
LastEvaluatedKey only when rows remain after it.  If every query reported a
key, the final key names row k-1 and the fetch resumes at row k; otherwise
the loop broke and the final response carries no key. -/
def walkLEK (n k : Nat) : Option Nat :=
  if k < n then some k else none

/-- The skip phase (try block, lines 71-97).  rand models
random.randint 0 (max 0 (total - items_per_bucket)) as a function of the
upper bound; countFail and walkFail inject store errors in the count query
and the walk queries.  When the chosen offset is positive but below 100 the
walk loop body never runs, so the response variable of line 86 is unbound
and line 93 raises NameError, which the except at line 95 swallows. -/
def skipPhase (rows : List Review) (ipb : Nat) (rand : Nat → Nat)
    (countFail walkFail : Bool) : SkipResult :=
  if countFail then .errorCaught else
  let total := min rows.length ipb
  if 0 < total then
    let skip := rand (total - ipb)
    if 0 < skip then
      if skip / 100 = 0 then .errorCaught
      else if walkFail then .errorCaught
      else
        match walkLEK rows.length (skip / 100) with
        | some p => .keyAt p
        | none => .keyNone
    else .noKey
  else .noKey

/-- One bucket of strategy A: the skip phase followed by the fetch
(lines 100-105).  A caught skip-phase error leaves query_params without an
ExclusiveStartKey, so the fetch returns the first items_per_bucket matching
rows; a None key makes the fetch itself raise and the bucket is skipped. -/
def queryBucket (rows : List Review) (ipb : Nat) (rand : Nat → Nat)
    (countFail walkFail fetchFail : Bool) : List Review :=
  if fetchFail then [] else
  match skipPhase rows ipb rand countFail walkFail with
  | .errorCaught => rows.take ipb
  | .noKey => rows.take ipb
  | .keyNone => []
  | .keyAt p => (rows.drop p).take ipb

/-- get_random_reviews of the legacy variant.  bucketRows lists, in order,
the matching rows of each of the three sampled buckets; the rating and
department filters select them and are absorbed into bucketRows.
items_per_bucket = batch_size // len(buckets_to_try) + 1 (line 41). -/
def get_random_reviews (bucketRows : List (List Review)) (batch : Nat)
    (rand : Nat → Nat → Nat) (countFail walkFail fetchFail : Nat → Bool)
    (shuffle : List Review → List Review) : List Review :=
  let ipb := batch / bucketRows.length + 1
  let all := (bucketRows.enum.map (fun bi =>
      queryBucket bi.2 ipb (rand bi.1) (countFail bi.1) (walkFail bi.1) (fetchFail bi.1))).flatten
  assemble shuffle all batch

/-- lambda_handler of the legacy variant (lines 124-164): the CORS preflight
check comes first, with no environment validation. -/
def lambda_handler (event : Event) (bucketRows : List (List Review))
    (rand : Nat → Nat → Nat) (countFail walkFail fetchFail : Nat → Bool)
    (shuffle : List Review → List Review) : HttpResponse :=
  if event.httpMethod = some "OPTIONS" then
    create_response 200 .emptyObj
  else
    let body := event.body.getD ⟨none, none, none⟩
    let batch := min (body.batchSize.getD 20) 50
    let rf := body.ratingFilter.getD "all"
    let df := body.departmentFilter.getD "all"
    let items := get_random_reviews bucketRows batch rand countFail walkFail fetchFail shuffle
    create_response 200 (.success items items.length rf df)

end EvenSplit

/-! ### Concrete data used by closed theorems -/

/-- A sample positive review. -/
def demoReview : Review := ⟨"r0", 5, 1, "Tops"⟩

/-- A bucket of 150 matching rows (all copies of the demo review). -/
def rows150 : List Review := List.replicate 150 demoReview

/-- A well-formed environment. -/
def goodEnv : Env := ⟨some "Reviews", some "RandomBucketIndex"⟩

/-- An environment with both variables missing. -/
def badEnv : Env := ⟨none, none⟩

/-- A CORS preflight event. -/
def optionsEvent : Event := ⟨some "OPTIONS", none⟩

/-- The number of positive rows a bucket query outcome returned (0 for a
failed query). -/
def posAvail : Option (List Review) → Nat
  | none => 0
  | some items => (items.filter isPositive).length

/-- The number of negative rows a bucket query outcome returned. -/
def negAvail : Option (List Review) → Nat
  | none => 0
  | some items => (items.filter isNegative).length

/-- Total positive rows over all sampled bucket query outcomes. -/
def posSum (results : List (Option (List Review))) : Nat :=
  (results.map posAvail).sum

/-- Total negative rows over all sampled bucket query outcomes. -/
def negSum (results : List (Option (List Review))) : Nat :=
  (results.map negAvail).sum

/-- The rows of the store indexed under bucket b (the secondary-index key
range the per-bucket queries read). -/
def bucketStore (store : List Review) (b : Nat) : List Review :=
  store.filter (fun r => r.randomBucket == b)

/-- All reviewId values in the list are distinct. -/
def idsNodup (l : List Review) : Prop := (l.map Review.reviewId).Nodup

/-- A store of 10 positive reviews with distinct ids spread over buckets
1, 2, 3 (4 + 3 + 3 rows). -/
def posStore : List Review :=
  [⟨"r0", 5, 1, "Tops"⟩, ⟨"r1", 5, 1, "Tops"⟩, ⟨"r2", 4, 1, "Tops"⟩, ⟨"r3", 5, 1, "Tops"⟩,
   ⟨"r4", 5, 2, "Tops"⟩, ⟨"r5", 4, 2, "Tops"⟩, ⟨"r6", 5, 2, "Tops"⟩,
   ⟨"r7", 5, 3, "Tops"⟩, ⟨"r8", 4, 3, "Tops"⟩, ⟨"r9", 5, 3, "Tops"⟩]

/-- Query outcomes for the five sampled buckets 1..5 against posStore: the
three populated buckets return their rows, buckets 4 and 5 are empty. -/
def posResults : List (Option (List Review)) :=
  [some (bucketStore posStore 1), some (bucketStore posStore 2), some (bucketStore posStore 3),
   some (bucketStore posStore 4), some (bucketStore posStore 5)]

/-- A store of 5 positive and 5 negative reviews with distinct ids spread
over buckets 1, 2, 3. -/
def balStore : List Review :=
  [⟨"b0", 5, 1, "Tops"⟩, ⟨"b1", 1, 1, "Tops"⟩, ⟨"b2", 4, 1, "Tops"⟩, ⟨"b3", 2, 1, "Tops"⟩,
   ⟨"b4", 5, 2, "Tops"⟩, ⟨"b5", 3, 2, "Tops"⟩, ⟨"b6", 4, 2, "Tops"⟩,
   ⟨"b7", 1, 3, "Tops"⟩, ⟨"b8", 4, 3, "Tops"⟩, ⟨"b9", 2, 3, "Tops"⟩]

/-- Query outcomes for sampled buckets 1, 2, 3 against balStore. -/
def balResults : List (Option (List Review)) :=
  [some (bucketStore balStore 1), some (bucketStore balStore 2), some (bucketStore balStore 3)]

/-! ### clean_item lemmas -/

/-- The coercion of clean_item is idempotent on values. -/
theorem coerceVal_idem (v : PyVal) : coerceVal (coerceVal v) = coerceVal v := by
  cases v <;> rfl

/-- Looking a field up after clean_item returns the coerced stored value. -/
theorem clean_item_lookup (item : List (String × PyVal)) (f : String)
    (hf : f ∈ integerFields) :
    (clean_item item).lookup f = (item.lookup f).map coerceVal := by
  induction item with
  | nil => rfl
  | cons kv rest ih =>
      have hstep : clean_item (kv :: rest)
          = (if kv.1 ∈ integerFields then (kv.1, coerceVal kv.2) else kv) :: clean_item rest := rfl
      by_cases hmem : kv.1 ∈ integerFields
      · rw [hstep, if_pos hmem]
        by_cases hk : f == kv.1
        · simp [List.lookup, hk]
        · simp [List.lookup, hk, ih]
      · rw [hstep, if_neg hmem]
        by_cases hk : f == kv.1
        · exact absurd (eq_of_beq hk ▸ hf) hmem
        · simp [List.lookup, hk, ih]

/-- C8: field-type normalization is idempotent: applying clean_item twice
yields the same result as applying it once (the coercion maps every value to
an already-coerced value, and coerced values are untouched). -/
theorem C8_clean_item_idempotent (item : List (String × PyVal)) :
    clean_item (clean_item item) = clean_item item := by
  simp only [clean_item, List.map_map]
  apply List.map_congr_left
  intro kv _
  by_cases h : kv.1 ∈ integerFields
  · simp [Function.comp, h, coerceVal_idem]
  · simp [Function.comp, h]

/-- C7 counterexample: on the value Decimal(-5/2) stored in the integer-typed
field age, clean_item produces int(float(-5/2)) = -2 (truncation toward
zero), while the floor of -5/2 is -3; so the coerced result does not equal
floor(float(v)) for every such v, refuting the claim as stated. -/
theorem C7_counterexample :
    clean_item [("age", PyVal.dec (-5/2))] = [("age", PyVal.int (-2))] ∧
    (⌊(-5/2 : ℚ)⌋ : Int) = -3 ∧
    PyVal.int (-2) ≠ PyVal.int (-3) := by
  refine ⟨?_, ?_, by decide⟩
  · have h : pyInt (-5/2 : ℚ) = -2 := by
      rw [pyInt, if_neg (by norm_num)]
      rw [Int.ceil_eq_iff]
      norm_num
    simp [clean_item, integerFields, coerceVal, h]
  · rw [Int.floor_eq_iff]
    norm_num

/-- C7 (amended): clean_item coerces every Decimal- or float-valued
integer-typed field to the truncation toward zero of its float value --
which agrees with the floor only on nonnegative values. -/
theorem C7_truncation (item : List (String × PyVal)) (f : String) (q : ℚ)
    (hf : f ∈ integerFields)
    (hv : item.lookup f = some (PyVal.dec q) ∨ item.lookup f = some (PyVal.float q)) :
    (clean_item item).lookup f = some (PyVal.int (pyInt q)) ∧
    (0 ≤ q → pyInt q = ⌊q⌋) := by
  constructor
  · rw [clean_item_lookup item f hf]
    rcases hv with h | h <;> rw [h] <;> rfl
  · intro hq
    simp [pyInt, hq]

/-- C7 witness: the amended statement evaluated on a concrete item holding
age = Decimal(7/2): the coerced value is 3. -/
theorem C7_witness :
    (clean_item [("age", PyVal.dec (7/2)), ("title", PyVal.str "Nice")]).lookup "age"
      = some (PyVal.int (pyInt (7/2))) ∧
    (0 ≤ (7/2 : ℚ) → pyInt (7/2) = ⌊(7/2 : ℚ)⌋) :=
  C7_truncation [("age", PyVal.dec (7/2)), ("title", PyVal.str "Nice")] "age" (7/2)
    (by decide) (Or.inl rfl)

/-! ### C3: assembly length -/

/-- C3: for every valid batch size B and accumulated sequence, the final
assembly step (random shuffle, truncation to batch size, clean_item pass)
returns exactly min B totalAccumulated items; no padding by duplication. -/
theorem C3_assemble_length (shuffle : List Review → List Review)
    (hsh : ∀ l, List.Perm (shuffle l) l) (batch : Nat) (hb : batch ≤ 50)
    (items : List Review) :
    (assemble shuffle items batch).length = min batch items.length := by
  simp [assemble, List.length_take, (hsh items).length_eq]

/-- C3 witness: assembling one accumulated item with batch size 3 yields
min 3 1 = 1 item. -/
theorem C3_witness :
    (assemble (fun l => l) [demoReview] 3).length = min 3 [demoReview].length :=
  C3_assemble_length (fun l => l) (fun l => List.Perm.refl l) 3 (by decide) [demoReview]

/-! ### C9: CORS preflight -/

/-- C9 counterexample: in the reviews variant, environment validation runs
before the OPTIONS check, so with both environment variables missing even a
CORS preflight event is answered with HTTP 500, not 200 -- refuting the
claim that every OPTIONS event gets a 200 response regardless of everything
but the event. -/
theorem C9_counterexample :
    (RatioBalanced.lambda_handler badEnv optionsEvent [] (fun l _ => l) (fun l => l)).statusCode
      = 500 ∧
    (RatioBalanced.lambda_handler badEnv optionsEvent [] (fun l _ => l) (fun l => l)).statusCode
      ≠ 200 := by
  constructor
  · rfl
  · decide

/-- C9 (amended): an OPTIONS event is answered with status 200, the empty
JSON object body and the standard CORS headers, regardless of the rest of
the event -- unconditionally in the legacy variant, and provided environment
validation passes in the reviews variant. -/
theorem C9_options_preflight :
    (∀ (event : Event) bucketRows rand countFail walkFail fetchFail shuffle,
        event.httpMethod = some "OPTIONS" →
        EvenSplit.lambda_handler event bucketRows rand countFail walkFail fetchFail shuffle
          = create_response 200 Body.emptyObj) ∧
    (∀ (env : Env) (event : Event) results sample shuffle,
        missingVars env = [] →
        event.httpMethod = some "OPTIONS" →
        RatioBalanced.lambda_handler env event results sample shuffle
          = create_response 200 Body.emptyObj) ∧
    (create_response 200 Body.emptyObj).headers = responseHeaders := by
  refine ⟨?_, ?_, rfl⟩
  · intro event bucketRows rand cf wf ff shuffle h
    simp [EvenSplit.lambda_handler, h]
  · intro env event results sample shuffle hmv h
    simp [RatioBalanced.lambda_handler, hmv, h]

/-- C9 witness: both conjuncts applied to a concrete OPTIONS event (the
reviews variant under a complete environment). -/
theorem C9_witness :
    EvenSplit.lambda_handler optionsEvent [] (fun _ _ => 0) (fun _ => false) (fun _ => false)
        (fun _ => false) (fun l => l) = create_response 200 Body.emptyObj ∧
    RatioBalanced.lambda_handler goodEnv optionsEvent [] (fun l _ => l) (fun l => l)
      = create_response 200 Body.emptyObj :=
  ⟨C9_options_preflight.1 optionsEvent [] (fun _ _ => 0) (fun _ => false) (fun _ => false)
      (fun _ => false) (fun l => l) rfl,
   C9_options_preflight.2.1 goodEnv optionsEvent [] (fun l _ => l) (fun l => l) rfl rfl⟩

/-! ### C1: the randomized pagination skip of strategy A

Evaluating the embedded skip phase on a bucket of 150 matching rows with
items_per_bucket = 4 (batch size 10 over 3 buckets):
* the COUNT query still carries Limit = items_per_bucket, so the reported
  total is 4, the offset bound max(0, total - items_per_bucket) is 0, and a
  contract-compliant random.randint always returns offset 0: the cursor is
  never advanced, while the claim prescribes offsets up to 150 - 4 = 146;
* had offset 50 been chosen, the walk loop would run 50 // 100 = 0 times,
  line 93 would raise NameError (response unbound) and the bucket falls back
  to the un-skipped first-4 fetch starting at row 0, not row 50;
* had offset 250 been chosen, the walk of 250 // 100 = 2 single-row (Limit 1)
  queries advances the cursor by 2 rows, so the fetch starts at row 2, not
  row 250. -/
set_option maxRecDepth 4000 in
theorem C1_skip_divergence :
    EvenSplit.skipPhase rows150 4 (fun _ => 0) false false = .noKey ∧
    EvenSplit.queryBucket rows150 4 (fun _ => 0) false false false = rows150.take 4 ∧
    EvenSplit.skipPhase rows150 4 (fun _ => 50) false false = .errorCaught ∧
    EvenSplit.queryBucket rows150 4 (fun _ => 50) false false false = rows150.take 4 ∧
    EvenSplit.skipPhase rows150 4 (fun _ => 250) false false = .keyAt 2 ∧
    EvenSplit.queryBucket rows150 4 (fun _ => 250) false false false = (rows150.drop 2).take 4 ∧
    rows150.length = 150 := by
  refine ⟨rfl, rfl, rfl, rfl, rfl, rfl, by simp [rows150]⟩

/-! ### C6: skip-phase errors are swallowed -/

/-- Helper: a per-bucket fetch whose skip phase raised equals the plain
un-skipped fetch of the first items_per_bucket matching rows. -/
theorem queryBucket_of_skip_error (rows : List Review) (ipb : Nat) (rand : Nat → Nat)
    (countFail walkFail : Bool)
    (herr : EvenSplit.skipPhase rows ipb rand countFail walkFail = .errorCaught) :
    EvenSplit.queryBucket rows ipb rand countFail walkFail false = rows.take ipb := by
  simp [EvenSplit.queryBucket, herr]

/-- C6: any error raised during the skip phase (count query, pagination walk,
or the cursor assignment of line 93) is caught: the bucket falls back to the
un-skipped fetch of the first items_per_bucket matching rows, and the whole
invocation still returns the normally assembled result (here: with the count
query failing in every bucket, the result is the plain even-split assembly). -/
theorem C6_skip_errors_swallowed :
    (∀ (rows : List Review) (ipb : Nat) (rand : Nat → Nat) (countFail walkFail : Bool),
        EvenSplit.skipPhase rows ipb rand countFail walkFail = .errorCaught →
        EvenSplit.queryBucket rows ipb rand countFail walkFail false = rows.take ipb) ∧
    (∀ (rows : List Review) (ipb : Nat) (rand : Nat → Nat),
        0 < min rows.length ipb →
        0 < rand (min rows.length ipb - ipb) →
        rand (min rows.length ipb - ipb) / 100 = 0 →
        EvenSplit.skipPhase rows ipb rand false false = .errorCaught) ∧
    (∀ (bucketRows : List (List Review)) (batch : Nat) (rand : Nat → Nat → Nat)
        (walkFail : Nat → Bool) (shuffle : List Review → List Review),
        EvenSplit.get_random_reviews bucketRows batch rand (fun _ => true) walkFail
            (fun _ => false) shuffle
          = assemble shuffle
              ((bucketRows.map (fun rows => rows.take (batch / bucketRows.length + 1))).flatten)
              batch) := by
  refine ⟨queryBucket_of_skip_error, ?_, ?_⟩
  · intro rows ipb rand htot hskip hdiv
    have h0 : min rows.length ipb - ipb = 0 :=
      Nat.sub_eq_zero_of_le (Nat.min_le_right _ _)
    rw [h0] at hskip hdiv
    simp [EvenSplit.skipPhase, htot, h0, hskip, hdiv]
  · intro bucketRows batch rand walkFail shuffle
    have hmap : bucketRows.enum.map (fun bi =>
          EvenSplit.queryBucket bi.2 (batch / bucketRows.length + 1) (rand bi.1) true
            (walkFail bi.1) false)
        = bucketRows.map (fun rows => rows.take (batch / bucketRows.length + 1)) := by
      have h1 : bucketRows.enum.map (fun bi =>
            EvenSplit.queryBucket bi.2 (batch / bucketRows.length + 1) (rand bi.1) true
              (walkFail bi.1) false)
          = bucketRows.enum.map (fun bi => bi.2.take (batch / bucketRows.length + 1)) := by
        apply List.map_congr_left
        intro bi _
        rfl
      rw [h1]
      rw [show (fun bi : Nat × List Review => bi.2.take (batch / bucketRows.length + 1))
            = (fun rows : List Review => rows.take (batch / bucketRows.length + 1)) ∘ Prod.snd
          from rfl]
      rw [← List.map_map, List.enum_map_snd]
    simp only [EvenSplit.get_random_reviews, hmap]

/-- C6 witness: the three conjuncts at concrete inputs (an injected count
failure, a small positive offset raising NameError, and a whole invocation
with every count query failing). -/
theorem C6_witness :
    EvenSplit.queryBucket rows150 4 (fun _ => 0) true false false = rows150.take 4 ∧
    EvenSplit.skipPhase rows150 4 (fun _ => 50) false false = .errorCaught ∧
    EvenSplit.get_random_reviews [[demoReview]] 10 (fun _ _ => 0) (fun _ => true)
        (fun _ => false) (fun _ => false) (fun l => l)
      = assemble (fun l => l) (([[demoReview]].map (fun rows => rows.take (10 / 1 + 1))).flatten) 10 :=
  ⟨C6_skip_errors_swallowed.1 rows150 4 (fun _ => 0) true false rfl,
   C6_skip_errors_swallowed.2.1 rows150 4 (fun _ => 50) (by simp [rows150]) (by decide) (by decide),
   C6_skip_errors_swallowed.2.2 [[demoReview]] 10 (fun _ _ => 0) (fun _ => false) (fun l => l)⟩

/-! ### Ratio-balancing arithmetic -/

theorem countP_append (l₁ l₂ : List Review) : countP (l₁ ++ l₂) = countP l₁ + countP l₂ := by
  simp [countP]

theorem countN_append (l₁ l₂ : List Review) : countN (l₁ ++ l₂) = countN l₁ + countN l₂ := by
  simp [countN]

/-- Items drawn from the positive class are all positive: the draw counts k
toward the positive tally and 0 toward the negative tally. -/
theorem sample_pos_counts (sample : List Review → Nat → List Review)
    (hlen : ∀ l k, k ≤ l.length → (sample l k).length = k)
    (hmem : ∀ l k x, x ∈ sample l k → x ∈ l)
    (items : List Review) (k : Nat) (hk : k ≤ (items.filter isPositive).length) :
    countP (sample (items.filter isPositive) k) = k ∧
    countN (sample (items.filter isPositive) k) = 0 := by
  constructor
  · rw [countP, List.filter_eq_self.mpr, hlen _ _ hk]
    intro x hx
    exact (List.mem_filter.mp (hmem _ _ _ hx)).2
  · rw [countN, List.length_eq_zero, List.filter_eq_nil]
    intro x hx
    have hpos := (List.mem_filter.mp (hmem _ _ _ hx)).2
    simp only [isPositive, decide_eq_true_eq] at hpos
    simp only [isNegative, decide_eq_true_eq]
    omega

/-- Items drawn from the negative class are all negative. -/
theorem sample_neg_counts (sample : List Review → Nat → List Review)
    (hlen : ∀ l k, k ≤ l.length → (sample l k).length = k)
    (hmem : ∀ l k x, x ∈ sample l k → x ∈ l)
    (items : List Review) (k : Nat) (hk : k ≤ (items.filter isNegative).length) :
    countN (sample (items.filter isNegative) k) = k ∧
    countP (sample (items.filter isNegative) k) = 0 := by
  constructor
  · rw [countN, List.filter_eq_self.mpr, hlen _ _ hk]
    intro x hx
    exact (List.mem_filter.mp (hmem _ _ _ hx)).2
  · rw [countP, List.length_eq_zero, List.filter_eq_nil]
    intro x hx
    have hneg := (List.mem_filter.mp (hmem _ _ _ hx)).2
    simp only [isNegative, decide_eq_true_eq] at hneg
    simp only [isPositive, decide_eq_true_eq]
    omega

/-- One ratio-balanced bucket step under ratingFilter = "all": each target is
decremented by exactly the number of items drawn from its class (so the
quantity len(all_items) + positive_target + negative_target is preserved),
and the class tallies of all_items grow by exactly those decrements. -/
theorem ratioStep_all_spec (sample : List Review → Nat → List Review)
    (hlen : ∀ l k, k ≤ l.length → (sample l k).length = k)
    (hmem : ∀ l k x, x ∈ sample l k → x ∈ l)
    (st : RatioBalanced.SampState) (items : List Review) :
    (RatioBalanced.ratioStep sample "all" st items).2.1
        = st.2.1 - (items.filter isPositive).length ∧
    (RatioBalanced.ratioStep sample "all" st items).2.2
        = st.2.2 - (items.filter isNegative).length ∧
    countP (RatioBalanced.ratioStep sample "all" st items).1
        + (RatioBalanced.ratioStep sample "all" st items).2.1
      = countP st.1 + st.2.1 ∧
    countN (RatioBalanced.ratioStep sample "all" st items).1
        + (RatioBalanced.ratioStep sample "all" st items).2.2
      = countN st.1 + st.2.2 ∧
    (RatioBalanced.ratioStep sample "all" st items).1.length
        + (RatioBalanced.ratioStep sample "all" st items).2.1
        + (RatioBalanced.ratioStep sample "all" st items).2.2
      = st.1.length + st.2.1 + st.2.2 := by
  obtain ⟨a, p, n⟩ := st
  have e1 := hlen (items.filter isPositive) (min (items.filter isPositive).length p)
    (Nat.min_le_left _ _)
  have e2 := hlen (items.filter isNegative) (min (items.filter isNegative).length n)
    (Nat.min_le_left _ _)
  have c1 := sample_pos_counts sample hlen hmem items
    (min (items.filter isPositive).length p) (Nat.min_le_left _ _)
  have c2 := sample_neg_counts sample hlen hmem items
    (min (items.filter isNegative).length n) (Nat.min_le_left _ _)
  by_cases hp : 0 < (items.filter isPositive).length ∧ 0 < p <;>
    by_cases hn : 0 < (items.filter isNegative).length ∧ 0 < n <;>
      simp [RatioBalanced.ratioStep, hp, hn, countP_append, countN_append,
        e1, e2, c1.1, c1.2, c2.1, c2.2] <;>
      omega

/-- The loop preserves len(all_items) + positive_target + negative_target. -/
theorem ratioLoop_measure (sample : List Review → Nat → List Review)
    (hlen : ∀ l k, k ≤ l.length → (sample l k).length = k)
    (hmem : ∀ l k x, x ∈ sample l k → x ∈ l) (batch : Nat) :
    ∀ (results : List (Option (List Review))) (st : RatioBalanced.SampState),
      (RatioBalanced.ratioLoop sample "all" batch st results).1.length
        + (RatioBalanced.ratioLoop sample "all" batch st results).2.1
        + (RatioBalanced.ratioLoop sample "all" batch st results).2.2
      = st.1.length + st.2.1 + st.2.2 := by
  intro results
  induction results with
  | nil => intro st; rfl
  | cons r rest ih =>
      intro st
      cases r with
      | none => simpa [RatioBalanced.ratioLoop] using ih st
      | some items =>
          have hstep := ratioStep_all_spec sample hlen hmem st items
          by_cases hbr : batch ≤ (RatioBalanced.ratioStep sample "all" st items).1.length
          · simp only [RatioBalanced.ratioLoop, if_pos hbr]
            omega
          · simp only [RatioBalanced.ratioLoop, if_neg hbr]
            rw [ih]
            omega

/-- The loop preserves countP(all_items) + positive_target and its negative
counterpart. -/
theorem ratioLoop_counts (sample : List Review → Nat → List Review)
    (hlen : ∀ l k, k ≤ l.length → (sample l k).length = k)
    (hmem : ∀ l k x, x ∈ sample l k → x ∈ l) (batch : Nat) :
    ∀ (results : List (Option (List Review))) (st : RatioBalanced.SampState),
      countP (RatioBalanced.ratioLoop sample "all" batch st results).1
          + (RatioBalanced.ratioLoop sample "all" batch st results).2.1
        = countP st.1 + st.2.1 ∧
      countN (RatioBalanced.ratioLoop sample "all" batch st results).1
          + (RatioBalanced.ratioLoop sample "all" batch st results).2.2
        = countN st.1 + st.2.2 := by
  intro results
  induction results with
  | nil => intro st; exact ⟨rfl, rfl⟩
  | cons r rest ih =>
      intro st
      cases r with
      | none => simpa [RatioBalanced.ratioLoop] using ih st
      | some items =>
          have hstep := ratioStep_all_spec sample hlen hmem st items
          by_cases hbr : batch ≤ (RatioBalanced.ratioStep sample "all" st items).1.length
          · simp only [RatioBalanced.ratioLoop, if_pos hbr]
            omega
          · simp only [RatioBalanced.ratioLoop, if_neg hbr]
            have := ih (RatioBalanced.ratioStep sample "all" st items)
            omega

/-- When the sampled buckets return enough rows of each class, the loop
drives both targets to zero. -/
theorem ratioLoop_targets_zero (sample : List Review → Nat → List Review)
    (hlen : ∀ l k, k ≤ l.length → (sample l k).length = k)
    (hmem : ∀ l k x, x ∈ sample l k → x ∈ l) (batch : Nat) :
    ∀ (results : List (Option (List Review))) (st : RatioBalanced.SampState),
      st.1.length + st.2.1 + st.2.2 = batch →
      st.2.1 ≤ posSum results → st.2.2 ≤ negSum results →
      (RatioBalanced.ratioLoop sample "all" batch st results).2.1 = 0 ∧
      (RatioBalanced.ratioLoop sample "all" batch st results).2.2 = 0 := by
  intro results
  induction results with
  | nil =>
      intro st hm hp hn
      simp only [posSum, negSum, List.map_nil, List.sum_nil] at hp hn
      exact ⟨Nat.le_zero.mp hp, Nat.le_zero.mp hn⟩
  | cons r rest ih =>
      intro st hm hp hn
      cases r with
      | none =>
          simp only [posSum, negSum, List.map_cons, List.sum_cons, posAvail, negAvail,
            Nat.zero_add] at hp hn
          simpa [RatioBalanced.ratioLoop] using
            ih st hm (by simpa [posSum] using hp) (by simpa [negSum] using hn)
      | some items =>
          have hstep := ratioStep_all_spec sample hlen hmem st items
          simp only [posSum, negSum, List.map_cons, List.sum_cons, posAvail, negAvail] at hp hn
          by_cases hbr : batch ≤ (RatioBalanced.ratioStep sample "all" st items).1.length
          · simp only [RatioBalanced.ratioLoop, if_pos hbr]
            omega
          · simp only [RatioBalanced.ratioLoop, if_neg hbr]
            refine ih (RatioBalanced.ratioStep sample "all" st items) (by omega)
              (by simp only [posSum]; omega) (by simp only [negSum]; omega)

/-- Mapping clean_item over structured reviews changes nothing. -/
theorem map_cleanReview (l : List Review) : l.map cleanReview = l := by
  induction l with
  | nil => rfl
  | cons x rest ih => simp [cleanReview, ih]

/-- The exact class tallies and length of the ratio-balanced result under
ratingFilter = "all" when the sampled buckets return enough rows of each
class: the positive tally is batchSize - batchSize / 2, the negative tally
batchSize / 2, and the result length is exactly batchSize. -/
theorem ratio_result_counts (sample : List Review → Nat → List Review)
    (hlen : ∀ l k, k ≤ l.length → (sample l k).length = k)
    (hmem : ∀ l k x, x ∈ sample l k → x ∈ l)
    (shuffle : List Review → List Review) (hsh : ∀ l, List.Perm (shuffle l) l)
    (batch : Nat) (df : String) (results : List (Option (List Review)))
    (hp : batch - batch / 2 ≤ posSum results) (hn : batch / 2 ≤ negSum results) :
    countP (RatioBalanced.get_random_reviews batch "all" df results sample shuffle)
        = batch - batch / 2 ∧
    countN (RatioBalanced.get_random_reviews batch "all" df results sample shuffle)
        = batch / 2 ∧
    (RatioBalanced.get_random_reviews batch "all" df results sample shuffle).length
        = batch := by
  have hm0 : (([], batch - batch / 2, batch / 2) : RatioBalanced.SampState).1.length
      + (([], batch - batch / 2, batch / 2) : RatioBalanced.SampState).2.1
      + (([], batch - batch / 2, batch / 2) : RatioBalanced.SampState).2.2 = batch := by
    simp
    omega
  have htz := ratioLoop_targets_zero sample hlen hmem batch results
    ([], batch - batch / 2, batch / 2) hm0 hp hn
  have hc := ratioLoop_counts sample hlen hmem batch results ([], batch - batch / 2, batch / 2)
  have hmes := ratioLoop_measure sample hlen hmem batch results ([], batch - batch / 2, batch / 2)
  set final := RatioBalanced.ratioLoop sample "all" batch ([], batch - batch / 2, batch / 2) results
    with hfinal
  dsimp only at hc hmes
  have h0p : countP ([] : List Review) = 0 := rfl
  have h0n : countN ([] : List Review) = 0 := rfl
  have hlenf : final.1.length = batch := by
    simp only [List.length_nil] at hmes
    omega
  have hcp : countP final.1 = batch - batch / 2 := by omega
  have hcn : countN final.1 = batch / 2 := by omega
  have ht : RatioBalanced.initTargets batch "all" = (batch - batch / 2, batch / 2) := by
    simp [RatioBalanced.initTargets]
  have hout : RatioBalanced.get_random_reviews batch "all" df results sample shuffle
      = (shuffle final.1).take batch := by
    simp only [RatioBalanced.get_random_reviews, ht, assemble, map_cleanReview]
  have htake : (shuffle final.1).take batch = shuffle final.1 := by
    apply List.take_of_length_le
    rw [(hsh final.1).length_eq, hlenf]
  have hperm : List.Perm (shuffle final.1) final.1 := hsh final.1
  rw [hout, htake]
  refine ⟨?_, ?_, ?_⟩
  · simpa only [countP, (hperm.filter isPositive).length_eq] using hcp
  · simpa only [countN, (hperm.filter isNegative).length_eq] using hcn
  · rw [hperm.length_eq, hlenf]

/-- Taking a prefix is one admissible draw-without-replacement: it has the
requested length. -/
theorem takeSample_len (l : List Review) (k : Nat) (h : k ≤ l.length) :
    (l.take k).length = k := by
  simp [List.length_take]
  omega

/-- Taking a prefix only returns members of the list. -/
theorem takeSample_mem (l : List Review) (k : Nat) (x : Review) (hx : x ∈ l.take k) :
    x ∈ l := List.take_subset k l hx

/-- C2: under ratingFilter = "all", whenever the sampled buckets together
return at least batchSize / 2 negative and batchSize - batchSize / 2
positive matching rows, the positive and negative tallies of the returned
sample each differ from the even split batchSize / 2 by at most 1. -/
theorem C2_ratio_balance (sample : List Review → Nat → List Review)
    (hlen : ∀ l k, k ≤ l.length → (sample l k).length = k)
    (hmem : ∀ l k x, x ∈ sample l k → x ∈ l)
    (shuffle : List Review → List Review) (hsh : ∀ l, List.Perm (shuffle l) l)
    (batch : Nat) (df : String) (results : List (Option (List Review)))
    (hp : batch - batch / 2 ≤ posSum results) (hn : batch / 2 ≤ negSum results)
    (out : List Review)
    (hout : out = RatioBalanced.get_random_reviews batch "all" df results sample shuffle) :
    countP out ≤ batch / 2 + 1 ∧ batch / 2 ≤ countP out + 1 ∧
    countN out ≤ batch / 2 + 1 ∧ batch / 2 ≤ countN out + 1 := by
  subst hout
  obtain ⟨h1, h2, h3⟩ :=
    ratio_result_counts sample hlen hmem shuffle hsh batch df results hp hn
  omega

/-- C2 witness: batch size 4 against one bucket holding two positive and two
negative rows gives tallies within 1 of the even split 2. -/
theorem C2_witness :
    countP (RatioBalanced.get_random_reviews 4 "all" "all"
        [some (bucketStore balStore 1)] (fun l k => l.take k) (fun l => l)) ≤ 4 / 2 + 1 ∧
    4 / 2 ≤ countP (RatioBalanced.get_random_reviews 4 "all" "all"
        [some (bucketStore balStore 1)] (fun l k => l.take k) (fun l => l)) + 1 ∧
    countN (RatioBalanced.get_random_reviews 4 "all" "all"
        [some (bucketStore balStore 1)] (fun l k => l.take k) (fun l => l)) ≤ 4 / 2 + 1 ∧
    4 / 2 ≤ countN (RatioBalanced.get_random_reviews 4 "all" "all"
        [some (bucketStore balStore 1)] (fun l k => l.take k) (fun l => l)) + 1 :=
  C2_ratio_balance (fun l k => l.take k) takeSample_len takeSample_mem (fun l => l)
    (fun l => List.Perm.refl l) 4 "all" [some (bucketStore balStore 1)]
    (by decide) (by decide) _ rfl

/-- The loop states reachable under ratingFilter = "all" all satisfy the
measure invariant. -/
theorem ratioStates_measure (sample : List Review → Nat → List Review)
    (hlen : ∀ l k, k ≤ l.length → (sample l k).length = k)
    (hmem : ∀ l k x, x ∈ sample l k → x ∈ l) (batch : Nat) :
    ∀ (results : List (Option (List Review))) (st : RatioBalanced.SampState),
      st.1.length + st.2.1 + st.2.2 = batch →
      ∀ s ∈ RatioBalanced.ratioStates sample "all" batch st results,
        s.1.length + s.2.1 + s.2.2 = batch := by
  intro results
  induction results with
  | nil => intro st hm s hs; simp [RatioBalanced.ratioStates] at hs
  | cons r rest ih =>
      intro st hm s hs
      cases r with
      | none =>
          simp only [RatioBalanced.ratioStates, List.mem_cons] at hs
          rcases hs with hs | hs
          · rw [hs]; exact hm
          · exact ih st hm s hs
      | some items =>
          have hstep := ratioStep_all_spec sample hlen hmem st items
          simp only [RatioBalanced.ratioStates, List.mem_cons] at hs
          rcases hs with hs | hs
          · rw [hs]; omega
          · by_cases hbr : batch ≤ (RatioBalanced.ratioStep sample "all" st items).1.length
            · simp [hbr] at hs
            · rw [if_neg hbr] at hs
              exact ih (RatioBalanced.ratioStep sample "all" st items) (by omega) s hs

/-- C10: under ratingFilter = "all", after each processed bucket the reached
state satisfies len(all_items) + positive_target + negative_target =
batch_size, hence all_items never exceeds batch_size before truncation and
the early-exit condition len(all_items) >= batch_size holds exactly when
both remaining targets are zero; moreover each bucket step preserves that
measure (the decrement max(0, target - class size) equals the number of
items actually drawn from that class). -/
theorem C10_loop_invariant (sample : List Review → Nat → List Review)
    (hlen : ∀ l k, k ≤ l.length → (sample l k).length = k)
    (hmem : ∀ l k x, x ∈ sample l k → x ∈ l)
    (batch : Nat) (results : List (Option (List Review))) :
    (∀ s ∈ RatioBalanced.ratioStates sample "all" batch
        ([], (RatioBalanced.initTargets batch "all").1,
          (RatioBalanced.initTargets batch "all").2) results,
        s.1.length + s.2.1 + s.2.2 = batch ∧ s.1.length ≤ batch ∧
          (batch ≤ s.1.length ↔ s.2.1 = 0 ∧ s.2.2 = 0)) ∧
    (∀ (st : RatioBalanced.SampState) (items : List Review),
        (RatioBalanced.ratioStep sample "all" st items).1.length
            + (RatioBalanced.ratioStep sample "all" st items).2.1
            + (RatioBalanced.ratioStep sample "all" st items).2.2
          = st.1.length + st.2.1 + st.2.2) := by
  constructor
  · intro s hs
    have ht : RatioBalanced.initTargets batch "all" = (batch - batch / 2, batch / 2) := by
      simp [RatioBalanced.initTargets]
    rw [ht] at hs
    have hm0 : (([], batch - batch / 2, batch / 2) : RatioBalanced.SampState).1.length
        + (([], batch - batch / 2, batch / 2) : RatioBalanced.SampState).2.1
        + (([], batch - batch / 2, batch / 2) : RatioBalanced.SampState).2.2 = batch := by
      simp
      omega
    have := ratioStates_measure sample hlen hmem batch results
      ([], batch - batch / 2, batch / 2) hm0 s hs
    omega
  · intro st items
    exact (ratioStep_all_spec sample hlen hmem st items).2.2.2.2

/-- C10 witness: the invariants at a concrete one-bucket run with batch 4. -/
theorem C10_witness :
    (∀ s ∈ RatioBalanced.ratioStates (fun l k => l.take k) "all" 4
        ([], (RatioBalanced.initTargets 4 "all").1, (RatioBalanced.initTargets 4 "all").2)
        [some (bucketStore balStore 1)],
        s.1.length + s.2.1 + s.2.2 = 4 ∧ s.1.length ≤ 4 ∧
          (4 ≤ s.1.length ↔ s.2.1 = 0 ∧ s.2.2 = 0)) ∧
    (∀ (st : RatioBalanced.SampState) (items : List Review),
        (RatioBalanced.ratioStep (fun l k => l.take k) "all" st items).1.length
            + (RatioBalanced.ratioStep (fun l k => l.take k) "all" st items).2.1
            + (RatioBalanced.ratioStep (fun l k => l.take k) "all" st items).2.2
          = st.1.length + st.2.1 + st.2.2) :=
  C10_loop_invariant (fun l k => l.take k) takeSample_len takeSample_mem 4
    [some (bucketStore balStore 1)]

/-- A failed bucket query leaves the loop state untouched: the loop only
sees the successful queries. -/
theorem ratioLoop_filter_isSome (sample : List Review → Nat → List Review)
    (rf : String) (batch : Nat) :
    ∀ (results : List (Option (List Review))) (st : RatioBalanced.SampState),
      RatioBalanced.ratioLoop sample rf batch st results
        = RatioBalanced.ratioLoop sample rf batch st (results.filter Option.isSome) := by
  intro results
  induction results with
  | nil => intro st; rfl
  | cons r rest ih =>
      intro st
      cases r with
      | none => simpa [RatioBalanced.ratioLoop] using ih st
      | some items =>
          simp only [List.filter_cons, Option.isSome_some, if_pos rfl,
            RatioBalanced.ratioLoop]
          by_cases hbr : batch ≤ (RatioBalanced.ratioStep sample rf st items).1.length
          · simp [hbr]
          · simp only [if_neg hbr]
            exact ih (RatioBalanced.ratioStep sample rf st items)

/-- When every bucket query failed, the loop returns its initial state. -/
theorem ratioLoop_all_none (sample : List Review → Nat → List Review)
    (rf : String) (batch : Nat) :
    ∀ (results : List (Option (List Review))), (∀ r ∈ results, r = none) →
      ∀ (st : RatioBalanced.SampState),
        RatioBalanced.ratioLoop sample rf batch st results = st := by
  intro results
  induction results with
  | nil => intro _ st; rfl
  | cons r rest ih =>
      intro hall st
      cases r with
      | none =>
          simpa [RatioBalanced.ratioLoop] using
            ih (fun x hx => hall x (List.mem_cons_of_mem _ hx)) st
      | some items =>
          exact absurd (hall (some items) (List.mem_cons_self _ _)) (by simp)

/-- When every sampled bucket query failed, get_random_reviews returns the
empty list. -/
theorem get_random_reviews_all_none (sample : List Review → Nat → List Review)
    (shuffle : List Review → List Review) (hsh : ∀ l, List.Perm (shuffle l) l)
    (batch : Nat) (rf df : String) (results : List (Option (List Review)))
    (hall : ∀ r ∈ results, r = none) :
    RatioBalanced.get_random_reviews batch rf df results sample shuffle = [] := by
  have hloop := ratioLoop_all_none sample rf batch results hall
    ([], (RatioBalanced.initTargets batch rf).1, (RatioBalanced.initTargets batch rf).2)
  have hnil : shuffle [] = [] := (hsh []).eq_nil
  simp [RatioBalanced.get_random_reviews, hloop, assemble, hnil]

/-- C5: in the ratio-balanced sampler, per-bucket query failures are
recovered by skipping the failed buckets (the result is exactly the result
on the successful queries alone), and when ALL bucket queries fail
get_random_reviews returns the empty list and lambda_handler still answers
HTTP 200 with an empty reviews array and count 0, never an error response. -/
theorem C5_bucket_failures :
    (∀ (batch : Nat) (rf df : String) (results : List (Option (List Review)))
        (sample : List Review → Nat → List Review) (shuffle : List Review → List Review),
        RatioBalanced.get_random_reviews batch rf df results sample shuffle
          = RatioBalanced.get_random_reviews batch rf df (results.filter Option.isSome)
              sample shuffle) ∧
    (∀ (batch : Nat) (rf df : String) (results : List (Option (List Review)))
        (sample : List Review → Nat → List Review) (shuffle : List Review → List Review),
        (∀ r ∈ results, r = none) → (∀ l, List.Perm (shuffle l) l) →
        RatioBalanced.get_random_reviews batch rf df results sample shuffle = []) ∧
    (∀ (env : Env) (event : Event) (results : List (Option (List Review)))
        (sample : List Review → Nat → List Review) (shuffle : List Review → List Review),
        missingVars env = [] →
        event.httpMethod ≠ some "OPTIONS" →
        (∀ r ∈ results, r = none) → (∀ l, List.Perm (shuffle l) l) →
        RatioBalanced.lambda_handler env event results sample shuffle
          = create_response 200 (Body.success [] 0
              ((event.body.getD ⟨none, none, none⟩).ratingFilter.getD "all")
              ((event.body.getD ⟨none, none, none⟩).departmentFilter.getD "all"))) := by
  refine ⟨?_, ?_, ?_⟩
  · intro batch rf df results sample shuffle
    simp [RatioBalanced.get_random_reviews, ratioLoop_filter_isSome sample rf batch results]
  · intro batch rf df results sample shuffle hall hsh
    exact get_random_reviews_all_none sample shuffle hsh batch rf df results hall
  · intro env event results sample shuffle hmv hopt hall hsh
    have hempty := get_random_reviews_all_none sample shuffle hsh
      (min ((event.body.getD ⟨none, none, none⟩).batchSize.getD 20) 50)
      ((event.body.getD ⟨none, none, none⟩).ratingFilter.getD "all")
      ((event.body.getD ⟨none, none, none⟩).departmentFilter.getD "all") results hall
    simp [RatioBalanced.lambda_handler, hmv, hopt, hempty]

/-- C5 witness: a POST invocation with five failing bucket queries answers
HTTP 200 with an empty sample. -/
theorem C5_witness :
    RatioBalanced.lambda_handler goodEnv ⟨some "POST", none⟩ [none, none, none, none, none]
        (fun l k => l.take k) (fun l => l)
      = create_response 200 (Body.success [] 0 "all" "all") :=
  C5_bucket_failures.2.2 goodEnv ⟨some "POST", none⟩ [none, none, none, none, none]
    (fun l k => l.take k) (fun l => l) rfl (by decide) (by decide) (fun l => List.Perm.refl l)

/-! ### Distinctness of returned review ids (C4 machinery) -/

/-- A subpermutation of a list with distinct ids has distinct ids. -/
theorem subperm_ids_nodup {l₁ l₂ : List Review} (h : List.Subperm l₁ l₂)
    (h₂ : idsNodup l₂) : idsNodup l₁ := by
  obtain ⟨w, hperm, hsub⟩ := h
  have hw : (w.map Review.reviewId).Nodup := h₂.sublist (hsub.map Review.reviewId)
  exact ((hperm.map Review.reviewId).nodup_iff).mp hw

/-- Appending subpermutations gives a subpermutation of the appended lists. -/
theorem subperm_append_both {α : Type} {l₁ l₂ r₁ r₂ : List α}
    (h₁ : List.Subperm l₁ l₂) (h₂ : List.Subperm r₁ r₂) :
    List.Subperm (l₁ ++ r₁) (l₂ ++ r₂) :=
  (((List.subperm_append_right r₁).mpr h₁)).trans ((List.subperm_append_left l₂).mpr h₂)

/-- The two rating classes partition a row list. -/
theorem pos_append_neg_perm (items : List Review) :
    List.Perm (items.filter isPositive ++ items.filter isNegative) items := by
  have h := List.filter_append_perm isPositive items
  have hneg : items.filter (fun a => !isPositive a) = items.filter isNegative := by
    apply List.filter_congr
    intro x _
    by_cases h4 : (4 : Int) ≤ x.rating
    · have h1 : isPositive x = true := by simp [isPositive, h4]
      have h2 : isNegative x = false := by simp [isNegative]; omega
      rw [h1, h2]
      rfl
    · have h1 : isPositive x = false := by simp [isPositive, h4]
      have h2 : isNegative x = true := by simp [isNegative]; omega
      rw [h1, h2]
      rfl
  rwa [hneg] at h

/-- One ratio-balanced bucket step appends a draw-without-replacement from
the returned rows of that bucket. -/
theorem ratioStep_append_subperm (sample : List Review → Nat → List Review)
    (hsub : ∀ l k, List.Subperm (sample l k) l) (rf : String)
    (st : RatioBalanced.SampState) (items : List Review) :
    ∃ app, (RatioBalanced.ratioStep sample rf st items).1 = st.1 ++ app ∧
      List.Subperm app items := by
  by_cases hall : rf = "all"
  · subst hall
    obtain ⟨a, p, n⟩ := st
    have hposs : List.Subperm (items.filter isPositive) items :=
      (List.filter_sublist items).subperm
    have hnegs : List.Subperm (items.filter isNegative) items :=
      (List.filter_sublist items).subperm
    by_cases hp : 0 < (items.filter isPositive).length ∧ 0 < p <;>
      by_cases hn : 0 < (items.filter isNegative).length ∧ 0 < n
    · refine ⟨sample (items.filter isPositive) (min (items.filter isPositive).length p)
          ++ sample (items.filter isNegative) (min (items.filter isNegative).length n),
        ?_, ?_⟩
      · simp [RatioBalanced.ratioStep, hp, hn]
      · refine (subperm_append_both (hsub _ _) (hsub _ _)).trans ?_
        exact (pos_append_neg_perm items).subperm
    · exact ⟨sample (items.filter isPositive) (min (items.filter isPositive).length p),
        by simp [RatioBalanced.ratioStep, hp, hn], (hsub _ _).trans hposs⟩
    · exact ⟨sample (items.filter isNegative) (min (items.filter isNegative).length n),
        by simp [RatioBalanced.ratioStep, hp, hn], (hsub _ _).trans hnegs⟩
    · exact ⟨[], by simp [RatioBalanced.ratioStep, hp, hn], List.nil_subperm⟩
  · exact ⟨items, by simp [RatioBalanced.ratioStep, hall], List.Subperm.refl items⟩

/-- All rows the successful bucket queries returned, concatenated. -/
def optJoin (results : List (Option (List Review))) : List Review :=
  (results.map (fun r => r.getD [])).flatten

/-- The accumulated items of the ratio-balanced loop are a
draw-without-replacement from the rows the queries returned. -/
theorem ratioLoop_append_subperm (sample : List Review → Nat → List Review)
    (hsub : ∀ l k, List.Subperm (sample l k) l) (rf : String) (batch : Nat) :
    ∀ (results : List (Option (List Review))) (st : RatioBalanced.SampState),
      ∃ app, (RatioBalanced.ratioLoop sample rf batch st results).1 = st.1 ++ app ∧
        List.Subperm app (optJoin results) := by
  intro results
  induction results with
  | nil => intro st; exact ⟨[], (List.append_nil st.1).symm, List.nil_subperm⟩
  | cons r rest ih =>
      intro st
      cases r with
      | none =>
          obtain ⟨app, he, hs⟩ := ih st
          exact ⟨app, by simpa [RatioBalanced.ratioLoop] using he,
            by simpa [optJoin] using hs⟩
      | some items =>
          obtain ⟨a1, he1, hs1⟩ := ratioStep_append_subperm sample hsub rf st items
          by_cases hbr : batch ≤ (RatioBalanced.ratioStep sample rf st items).1.length
          · refine ⟨a1, ?_, ?_⟩
            · rw [RatioBalanced.ratioLoop]
              simp only [if_pos hbr]
              exact he1
            have h2 : List.Subperm a1 (items ++ optJoin rest) :=
              hs1.trans (List.sublist_append_left items (optJoin rest)).subperm
            simpa [optJoin] using h2
          · obtain ⟨a2, he2, hs2⟩ := ih (RatioBalanced.ratioStep sample rf st items)
            refine ⟨a1 ++ a2, ?_, ?_⟩
            · rw [RatioBalanced.ratioLoop]
              simp only [if_neg hbr]
              rw [he2, he1, List.append_assoc]
            · simpa [optJoin] using subperm_append_both hs1 hs2

/-- When each sampled bucket query returned rows drawn from that bucket of
the store, the concatenation of all returned rows is drawn from the
concatenated bucket key ranges. -/
theorem optJoin_subperm (store : List Review)
    (buckets : List Nat) (results : List (Option (List Review)))
    (h : List.Forall₂ (fun b r => List.Subperm (Option.getD r []) (bucketStore store b))
      buckets results) :
    List.Subperm (optJoin results) ((buckets.map (bucketStore store)).flatten) := by
  induction h with
  | nil => simp [optJoin]
  | cons hbr hrest ih =>
      simp only [optJoin, List.map_cons, List.flatten_cons]
      exact subperm_append_both hbr ih

/-- In a store with distinct ids, each review is indexed under exactly one
bucket, so the key ranges of distinct buckets share no id and their
concatenation over a duplicate-free bucket choice has distinct ids. -/
theorem bucketStores_ids_nodup (store : List Review) :
    ∀ (buckets : List Nat), idsNodup store → buckets.Nodup →
      idsNodup ((buckets.map (bucketStore store)).flatten) := by
  intro buckets hstore hb
  induction buckets with
  | nil => simp [idsNodup]
  | cons b bs ih =>
      obtain ⟨hbmem, hbs⟩ := List.nodup_cons.mp hb
      simp only [List.map_cons, List.flatten_cons]
      rw [idsNodup, List.map_append, List.nodup_append]
      refine ⟨hstore.sublist ((List.filter_sublist store).map Review.reviewId),
        ih hbs, ?_⟩
      intro v hv hv2
      obtain ⟨x, hx, hxid⟩ := List.mem_map.mp hv
      obtain ⟨y, hy, hyid⟩ := List.mem_map.mp hv2
      obtain ⟨ly, hly, hyly⟩ := List.mem_flatten.mp hy
      obtain ⟨b2, hb2, hb2eq⟩ := List.mem_map.mp hly
      have hxmem := List.mem_filter.mp hx
      rw [← hb2eq] at hyly
      have hymem := List.mem_filter.mp hyly
      have hxy : x = y :=
        List.inj_on_of_nodup_map hstore hxmem.1 hymem.1 (by rw [hxid, hyid])
      have hxb : x.randomBucket = b := by
        have := hxmem.2
        simpa using this
      have hyb : y.randomBucket = b2 := by
        have := hymem.2
        simpa using this
      apply hbmem
      rw [show b = b2 from by rw [← hxb, hxy, hyb]]
      exact hb2

/-- The ratio-balanced sampler never returns two items with the same
reviewId when the store ids are distinct, each review sits in one bucket,
and the sampled buckets are distinct. -/
theorem ratio_nodup (store : List Review) (buckets : List Nat)
    (results : List (Option (List Review))) (batch : Nat) (rf df : String)
    (sample : List Review → Nat → List Review) (shuffle : List Review → List Review)
    (hstore : idsNodup store) (hb : buckets.Nodup)
    (hres : List.Forall₂ (fun b r => List.Subperm (Option.getD r []) (bucketStore store b))
      buckets results)
    (hsub : ∀ l k, List.Subperm (sample l k) l)
    (hsh : ∀ l, List.Perm (shuffle l) l) :
    idsNodup (RatioBalanced.get_random_reviews batch rf df results sample shuffle) := by
  obtain ⟨app, he, hs⟩ := ratioLoop_append_subperm sample hsub rf batch results
    ([], (RatioBalanced.initTargets batch rf).1, (RatioBalanced.initTargets batch rf).2)
  have hfin : List.Subperm
      (RatioBalanced.ratioLoop sample rf batch
        ([], (RatioBalanced.initTargets batch rf).1, (RatioBalanced.initTargets batch rf).2)
        results).1
      ((buckets.map (bucketStore store)).flatten) := by
    rw [he]
    simpa using hs.trans (optJoin_subperm store buckets results hres)
  have hout : RatioBalanced.get_random_reviews batch rf df results sample shuffle
      = (shuffle (RatioBalanced.ratioLoop sample rf batch
          ([], (RatioBalanced.initTargets batch rf).1,
            (RatioBalanced.initTargets batch rf).2) results).1).take batch := by
    simp only [RatioBalanced.get_random_reviews, assemble, map_cleanReview]
  rw [hout]
  refine subperm_ids_nodup ?_ (bucketStores_ids_nodup store buckets hstore hb)
  refine List.Subperm.trans ?_ hfin
  exact ((List.take_sublist _ _).subperm).trans (hsh _).subperm

/-- Each even-split bucket fetch returns a sublist of the matching rows of
that bucket. -/
theorem queryBucket_sublist (rows : List Review) (ipb : Nat) (rand : Nat → Nat)
    (countFail walkFail fetchFail : Bool) :
    List.Sublist (EvenSplit.queryBucket rows ipb rand countFail walkFail fetchFail) rows := by
  rw [EvenSplit.queryBucket]
  by_cases hff : fetchFail = true
  · simp [hff]
  · simp only [hff, if_false, Bool.false_eq_true]
    cases EvenSplit.skipPhase rows ipb rand countFail walkFail with
    | errorCaught => exact List.take_sublist _ _
    | noKey => exact List.take_sublist _ _
    | keyNone => exact List.nil_sublist rows
    | keyAt p => exact (List.take_sublist _ _).trans (List.drop_sublist _ _)

/-- The even-split per-bucket contributions, concatenated, are drawn from
the concatenated bucket key ranges. -/
theorem evenSplit_flatten_subperm (store : List Review)
    (f : Nat → List Review → List Review) (hf : ∀ i rows, List.Sublist (f i rows) rows) :
    ∀ (buckets : List Nat) (bucketRows : List (List Review)),
      List.Forall₂ (fun b rows => List.Subperm rows (bucketStore store b)) buckets bucketRows →
      ∀ n, List.Subperm (((List.enumFrom n bucketRows).map (fun bi => f bi.1 bi.2)).flatten)
        ((buckets.map (bucketStore store)).flatten) := by
  intro buckets bucketRows h
  induction h with
  | nil => intro n; simp
  | cons hbr hrest ih =>
      intro n
      simp only [List.enumFrom, List.map_cons, List.flatten_cons]
      exact subperm_append_both ((hf _ _).subperm.trans hbr) (ih (n + 1))

/-- The even-split sampler never returns two items with the same reviewId
when the store ids are distinct and the sampled buckets are distinct. -/
theorem even_nodup (store : List Review) (buckets : List Nat)
    (bucketRows : List (List Review)) (batch : Nat) (rand : Nat → Nat → Nat)
    (countFail walkFail fetchFail : Nat → Bool) (shuffle : List Review → List Review)
    (hstore : idsNodup store) (hb : buckets.Nodup)
    (hrows : List.Forall₂ (fun b rows => List.Subperm rows (bucketStore store b))
      buckets bucketRows)
    (hsh : ∀ l, List.Perm (shuffle l) l) :
    idsNodup (EvenSplit.get_random_reviews bucketRows batch rand countFail walkFail
      fetchFail shuffle) := by
  have hflat := evenSplit_flatten_subperm store
    (fun i rows => EvenSplit.queryBucket rows (batch / bucketRows.length + 1) (rand i)
      (countFail i) (walkFail i) (fetchFail i))
    (fun i rows => queryBucket_sublist rows _ _ _ _ _) buckets bucketRows hrows 0
  have hout : EvenSplit.get_random_reviews bucketRows batch rand countFail walkFail
        fetchFail shuffle
      = (shuffle ((bucketRows.enum.map (fun bi =>
          EvenSplit.queryBucket bi.2 (batch / bucketRows.length + 1) (rand bi.1)
            (countFail bi.1) (walkFail bi.1) (fetchFail bi.1))).flatten)).take batch := by
    simp only [EvenSplit.get_random_reviews, assemble, map_cleanReview]
  rw [hout]
  refine subperm_ids_nodup ?_ (bucketStores_ids_nodup store buckets hstore hb)
  refine List.Subperm.trans ?_ hflat
  exact ((List.take_sublist _ _).subperm).trans (hsh _).subperm

/-- C4 counterexample: posStore holds 10 matching rows (all positive) spread
over the 3 buckets 1-3 with distinct ids, yet a batch_size = 10,
ratingFilter = all request through the ratio-balanced sampler returns only
5 reviews (the positive target), not 10 -- refuting the claimed end-to-end
scenario, which promises exactly 10 distinct reviews for any store with at
least 10 matching rows in at least 3 buckets. -/
theorem C4_counterexample :
    posStore.length = 10 ∧
    idsNodup posStore ∧
    (posStore.all (fun r => r.randomBucket == 1 || r.randomBucket == 2
        || r.randomBucket == 3)) = true ∧
    (RatioBalanced.get_random_reviews 10 "all" "all" posResults
        (fun l k => l.take k) (fun l => l)).length = 5 ∧
    (5 : Nat) ≠ 10 := by
  refine ⟨rfl, by unfold idsNodup; decide, rfl, by decide, by decide⟩

/-- Taking a prefix is a subpermutation (one admissible random.sample). -/
theorem takeSample_subperm (l : List Review) (k : Nat) : List.Subperm (l.take k) l :=
  (List.take_sublist k l).subperm

/-- C4 (amended): against a store whose reviews carry distinct reviewId
values, each indexed under exactly one randomBucket, neither sampler
variant ever returns two items with the same reviewId; and the
batch_size = 10, ratingFilter = all request returns exactly 10 distinct
reviews provided the sampled bucket queries together return at least 5
positive and at least 5 negative matching rows (at least 10 matching rows
over at least 3 buckets alone does not suffice). -/
theorem C4_distinct_reviews :
    (∀ (store : List Review) (buckets : List Nat) (bucketRows : List (List Review))
        (batch : Nat) (rand : Nat → Nat → Nat) (countFail walkFail fetchFail : Nat → Bool)
        (shuffle : List Review → List Review),
        idsNodup store → buckets.Nodup →
        List.Forall₂ (fun b rows => List.Subperm rows (bucketStore store b)) buckets bucketRows →
        (∀ l, List.Perm (shuffle l) l) →
        idsNodup (EvenSplit.get_random_reviews bucketRows batch rand countFail walkFail
          fetchFail shuffle)) ∧
    (∀ (store : List Review) (buckets : List Nat) (results : List (Option (List Review)))
        (batch : Nat) (rf df : String) (sample : List Review → Nat → List Review)
        (shuffle : List Review → List Review),
        idsNodup store → buckets.Nodup →
        List.Forall₂ (fun b r => List.Subperm (Option.getD r []) (bucketStore store b))
          buckets results →
        (∀ l k, List.Subperm (sample l k) l) →
        (∀ l, List.Perm (shuffle l) l) →
        idsNodup (RatioBalanced.get_random_reviews batch rf df results sample shuffle)) ∧
    (∀ (store : List Review) (buckets : List Nat) (results : List (Option (List Review)))
        (df : String) (sample : List Review → Nat → List Review)
        (shuffle : List Review → List Review),
        idsNodup store → buckets.Nodup →
        List.Forall₂ (fun b r => List.Subperm (Option.getD r []) (bucketStore store b))
          buckets results →
        (∀ l k, List.Subperm (sample l k) l) →
        (∀ l k, k ≤ l.length → (sample l k).length = k) →
        (∀ l, List.Perm (shuffle l) l) →
        5 ≤ posSum results → 5 ≤ negSum results →
        (RatioBalanced.get_random_reviews 10 "all" df results sample shuffle).length = 10 ∧
        idsNodup (RatioBalanced.get_random_reviews 10 "all" df results sample shuffle)) := by
  refine ⟨?_, ?_, ?_⟩
  · intro store buckets bucketRows batch rand countFail walkFail fetchFail shuffle
      hstore hb hrows hsh
    exact even_nodup store buckets bucketRows batch rand countFail walkFail fetchFail
      shuffle hstore hb hrows hsh
  · intro store buckets results batch rf df sample shuffle hstore hb hres hsub hsh
    exact ratio_nodup store buckets results batch rf df sample shuffle hstore hb hres hsub hsh
  · intro store buckets results df sample shuffle hstore hb hres hsub hlen hsh hp hn
    have hmem : ∀ l k x, x ∈ sample l k → x ∈ l := fun l k x hx => (hsub l k).subset hx
    refine ⟨?_, ratio_nodup store buckets results 10 "all" df sample shuffle hstore hb
      hres hsub hsh⟩
    exact (ratio_result_counts sample hlen hmem shuffle hsh 10 df results hp hn).2.2

/-- C4 witness: against balStore (5 positive, 5 negative rows with distinct
ids in buckets 1-3) with the three bucket queries returning their full key
ranges, the ratio-balanced request returns exactly 10 reviews with distinct
ids. -/
theorem C4_witness :
    (RatioBalanced.get_random_reviews 10 "all" "all" balResults
        (fun l k => l.take k) (fun l => l)).length = 10 ∧
    idsNodup (RatioBalanced.get_random_reviews 10 "all" "all" balResults
        (fun l k => l.take k) (fun l => l)) :=
  C4_distinct_reviews.2.2 balStore [1, 2, 3] balResults "all" (fun l k => l.take k)
    (fun l => l) (by unfold idsNodup; decide) (by decide)
    (List.Forall₂.cons (List.Subperm.refl _)
      (List.Forall₂.cons (List.Subperm.refl _)
        (List.Forall₂.cons (List.Subperm.refl _) List.Forall₂.nil)))
    takeSample_subperm takeSample_len (fun l => List.Perm.refl l) (by decide) (by decide)
